import Mathlib

/-!
Verification development for the AutoYt2mp3 repository.

The repository has two batch pipelines over one JSON record store:
* `update_db_from_txt.py` (discovery): searches queries, dedups by YouTube
  video id, appends new records;
* `conversion.py` (conversion): processes not-yet-done records through a
  web converter and updates their status.

This file gives a shallow embedding of the store, the URL/identifier
extraction, the dedup check, the discovery loop and the conversion loop,
and proves/refutes the specification claims about them.
-/

namespace AutoYt

/-! Section: URL parsing model

`extract_video_id` in `update_db_from_txt.py` uses `urllib.parse.urlparse`
(for `.hostname`, `.path`, `.query`) and `urllib.parse.parse_qs`.  The
definitions below model the relevant subset of those stdlib functions on
ASCII URLs: scheme stripping, netloc splitting on `//`, fragment and query
splitting, hostname extraction (after the last `@`, before the first `:`,
lowercased), and `parse_qsl` with `keep_blank_values=False` (pairs without
`=` and pairs with a blank value are dropped, `+` becomes a space, `%hh`
percent-escapes are decoded per byte).  IPv6 bracket hosts and multi-byte
UTF-8 percent sequences are outside the model. -/

/-- Characters legal in a URL scheme after the first one
(`urllib.parse.scheme_chars`). -/
def schemeChar (c : Char) : Bool :=
  c.isAlphanum || c = '+' || c = '-' || c = '.'

/-- Split a character list at the first occurrence of `c`:
`some (before, after)` with the separator dropped, or `none`. -/
def splitAtFirst (c : Char) : List Char → Option (List Char × List Char)
  | [] => none
  | x :: xs =>
    if x = c then some ([], xs)
    else match splitAtFirst c xs with
      | none => none
      | some (pre, post) => some (x :: pre, post)

/-- Split at the first occurrence of `c`, keeping everything when absent:
models Python `s.split(c, 1)` yielding one or two parts. -/
def breakAt (c : Char) (cs : List Char) : List Char × List Char :=
  match splitAtFirst c cs with
  | none => (cs, [])
  | some (pre, post) => (pre, post)

/-- Strip a leading `scheme:` when the text before the first `:` is an
ASCII letter followed by scheme characters (the `urlsplit` rule). -/
def stripScheme (cs : List Char) : List Char :=
  match splitAtFirst ':' cs with
  | none => cs
  | some (pre, post) =>
    match pre with
    | [] => cs
    | c0 :: rest =>
      if c0.isAlpha && rest.all schemeChar then post else cs

/-- Take characters up to the first netloc delimiter `/`, `?` or `#`;
the delimiter stays with the remainder (`urllib.parse._splitnetloc`). -/
def takeNetloc : List Char → List Char × List Char
  | [] => ([], [])
  | x :: xs =>
    if x = '/' || x = '?' || x = '#' then ([], x :: xs)
    else
      let (a, b) := takeNetloc xs
      (x :: a, b)

/-- Split off the netloc when the (scheme-stripped) URL starts with `//`. -/
def netlocSplit (cs : List Char) : List Char × List Char :=
  match cs with
  | '/' :: '/' :: rest => takeNetloc rest
  | _ => ([], cs)

/-- The part of a netloc after its last `@` (`rpartition('@')`). -/
def afterLastAt (cs : List Char) : List Char :=
  (cs.reverse.takeWhile (fun c => c ≠ '@')).reverse

/-- Hostname of a netloc: after the last `@`, before the first `:`,
ASCII-lowercased (the `.hostname` property, bracketless hosts). -/
def hostnameOf (netloc : List Char) : String :=
  String.mk (((breakAt ':' (afterLastAt netloc)).1).map Char.toLower)

/-- The components of a parsed URL that `extract_video_id` consults. -/
structure UrlParts where
  hostname : String
  path : String
  query : String
deriving DecidableEq

/-- Model of `urllib.parse.urlparse` restricted to the three components
used by the source: hostname, path and query. -/
def urlparse (url : String) : UrlParts :=
  let cs := stripScheme url.toList
  let (netloc, rest) := netlocSplit cs
  let (beforeFrag, _) := breakAt '#' rest
  let (path, query) := breakAt '?' beforeFrag
  { hostname := hostnameOf netloc
    path := String.mk path
    query := String.mk query }

/-- Numeric value of a hex digit, if any. -/
def hexVal? (c : Char) : Option Nat :=
  if '0' ≤ c ∧ c ≤ '9' then some (c.toNat - '0'.toNat)
  else if 'a' ≤ c ∧ c ≤ 'f' then some (c.toNat - 'a'.toNat + 10)
  else if 'A' ≤ c ∧ c ≤ 'F' then some (c.toNat - 'A'.toNat + 10)
  else none

/-- Percent-decoding: `%hh` with two hex digits becomes the byte `hh`;
malformed escapes are kept verbatim (`urllib.parse.unquote` on single
bytes). -/
def percentDecode : List Char → List Char
  | [] => []
  | '%' :: a :: b :: rest =>
    match hexVal? a, hexVal? b with
    | some ha, some hb => Char.ofNat (16 * ha + hb) :: percentDecode rest
    | _, _ => '%' :: percentDecode (a :: b :: rest)
  | x :: xs => x :: percentDecode xs

/-- Model of `unquote_plus`: `+` to space, then percent-decode. -/
def unquotePlus (s : String) : String :=
  String.mk (percentDecode (s.toList.map fun c => if c = '+' then ' ' else c))

/-- Split a character list on every occurrence of the separator `c`
(the semantics of Python `str.split` with an explicit separator). -/
def splitAll (c : Char) : List Char → List (List Char)
  | [] => [[]]
  | x :: xs =>
    if x = c then [] :: splitAll c xs
    else match splitAll c xs with
      | [] => [[x]]
      | h :: t => (x :: h) :: t

/-- Model of `parse_qsl(query)` with the default
`keep_blank_values=False`: split on `&`, drop empty items, drop items
without `=`, drop items whose raw value is blank, decode names and
values. -/
def qsPairs (query : String) : List (String × String) :=
  (splitAll '&' query.toList).filterMap fun item =>
    if item = [] then none
    else match splitAtFirst '=' item with
      | none => none
      | some (nm, vl) =>
        if vl = [] then none
        else some (unquotePlus (String.mk nm), unquotePlus (String.mk vl))

/-- Model of `parse_qs(query).get('v', [None])[0]`: the first value whose decoded
name is `v`, if any. -/
def getParamV (query : String) : Option String :=
  ((qsPairs query).find? (fun p => p.1 = "v")).map (·.2)

/-- The function `extract_video_id` from `update_db_from_txt.py`: the `v` parameter of
a `youtube.com`/`www.youtube.com` URL whose path is exactly `/watch`,
`None` otherwise. -/
def extract_video_id (youtube_url : String) : Option String :=
  let parsed := urlparse youtube_url
  if parsed.hostname = "www.youtube.com" ∨ parsed.hostname = "youtube.com" then
    if parsed.path = "/watch" then getParamV parsed.query
    else none
  else none

/-! Section: Record store data model

A store entry is a JSON object with fields `title`, `url`, `done`,
`download_path`, `project` (see the `result_obj` literal in
`update_db_from_txt.py` and the field accesses throughout).  The `done`
field holds a JSON boolean (`False` pending, `True` done) or a JSON
string (the sentinel `"timeout"`), so it is modelled as a sum. -/

/-- The value of the `done` field: a JSON boolean or a JSON string. -/
inductive Done where
  | b (val : Bool)
  | s (val : String)
deriving DecidableEq

/-- One record of the store, with the field names of the JSON file. -/
structure Entry where
  title : String
  url : String
  done : Done
  download_path : String
  project : String
deriving DecidableEq

/-- The function `check_duplicate` from `update_db_from_txt.py`: extract the video id
of the candidate URL; a falsy id (no id) skips the check; otherwise
return the first entry whose re-extracted id equals it. -/
def check_duplicate (new_url : String) (database : List Entry) : Option Entry :=
  match extract_video_id new_url with
  | none => none
  | some v =>
    if v = "" then none
    else database.find? (fun entry => extract_video_id entry.url == some v)

/-- The `result_obj` literal built in `main` of `update_db_from_txt.py`
for a non-duplicate query `q` whose search returned `url`. -/
def mkNewEntry (q url : String) : Entry :=
  { title := q, url := url, done := .b false, download_path := "", project := "" }

/-- The discovery loop of `main` in `update_db_from_txt.py`: each query
either yielded a result URL or not (`search_query_and_get_first_url` is
an oracle input, one `Option String` per query).  Duplicates are checked
against the database loaded at the start of the run; new entries and
reported duplicates accumulate separately. -/
def discoveryLoop (db : List Entry) :
    List (String × Option String) → List Entry → List (String × Entry) →
    List Entry × List (String × Entry)
  | [], news, dups => (news, dups)
  | (q, r) :: rest, news, dups =>
    match r with
    | none => discoveryLoop db rest news dups
    | some url =>
      match check_duplicate url db with
      | some entry => discoveryLoop db rest news (dups ++ [(q, entry)])
      | none => discoveryLoop db rest (news ++ [mkNewEntry q url]) dups

/-- A whole discovery run (`main` of `update_db_from_txt.py`): the
persisted store content after the run (`database.extend(new_entries);
save_database(database)` — content unchanged when there is nothing new),
together with the reported duplicates. -/
def discoveryRun (db : List Entry) (results : List (String × Option String)) :
    List Entry × List (String × Entry) :=
  let (news, dups) := discoveryLoop db results [] []
  (db ++ news, dups)

/-! Section: Conversion pipeline store operations -/

/-- Field mutation performed by `update_database_entry` on the matched
entry: `done` is always set; `download_path` only when the given path is
truthy (non-empty). -/
def updateEntryFields (entry : Entry) (download_path : String) (done_status : Done) :
    Entry :=
  { entry with
      done := done_status
      download_path := if download_path = "" then entry.download_path else download_path }

/-- The scan-and-mutate loop of `update_database_entry` in
`conversion.py`: find the first entry whose `url` field equals the given
URL (string equality), mutate it, `break`. -/
def update_database_entry (database : List Entry) (url download_path : String)
    (done_status : Done) : List Entry :=
  match database with
  | [] => []
  | entry :: rest =>
    if entry.url = url then updateEntryFields entry download_path done_status :: rest
    else entry :: update_database_entry rest url download_path done_status

/-! Section: Conversion pipeline

`process_file` in `conversion.py` iterates over the whole store;
entries whose `done` field is `True` are skipped with `continue`.  For a
selected entry, the browser interaction can end in one of five ways,
modelled as an oracle value per store position:

* `noInput`: the `id='v'` input is missing — `continue` before any
  mutation and before the per-entry save;
* `noConvert`: the `Convert` button is missing — same;
* `timeout`: the `Download` button never appears within the 60-second
  budget — `item["done"] = "timeout"`, an `update_database_entry` write,
  then `save_database(data)`;
* `success`: the `Download` button was clicked — `item["done"] = True`,
  an `update_database_entry` write, `item["download_path"] = dir`, then
  `save_database(data)`;
* `exn`: an unexpected exception mid-record — `item["done"] = "timeout"`
  in memory, best-effort page reload, then `continue`, which skips the
  per-entry `save_database(data)`.

The model threads the in-memory list (`data`) and the persisted store
content separately, and records the persisted content at the end of each
loop iteration (i.e. just before the next record begins). -/

/-- How the browser interaction for one selected record ends. -/
inductive Outcome where
  | noInput
  | noConvert
  | timeout
  | success
  | exn
deriving DecidableEq

/-- Result of a conversion run: final persisted store content (after the
final `save_database(data)`) and the persisted content at the end of
each loop iteration. -/
structure ConvResult where
  file : List Entry
  trace : List (List Entry)
deriving DecidableEq

/-- The record loop of `process_file`.  `donePart` is the in-memory
prefix already iterated over (with its mutations), `rest` the entries
still to visit, `file` the persisted store content, `i` the store
position feeding the oracle.  The `update_database_entry` write inside
the `timeout`/`success` branches loads the persisted content fresh and
writes it back; in the same iteration `save_database(data)` then
overwrites the file with the in-memory list, so the end-of-iteration
persisted content is the in-memory list. -/
def convGo (dir : String) (oracle : Nat → Outcome) :
    Nat → List Entry → List Entry → List Entry → List (List Entry) → ConvResult
  | _, donePart, [], _, trace =>
    -- after the loop, the final `save_database(data)` persists memory
    { file := donePart, trace := trace }
  | i, donePart, entry :: rest, file, trace =>
    if entry.done = Done.b true then
      -- "DÉJÀ TRAITÉE": `continue`, nothing saved, nothing mutated
      convGo dir oracle (i + 1) (donePart ++ [entry]) rest file (trace ++ [file])
    else
      match oracle i with
      | .noInput | .noConvert =>
        -- `continue` before the status write and before the save
        convGo dir oracle (i + 1) (donePart ++ [entry]) rest file (trace ++ [file])
      | .timeout =>
        let entry' := { entry with done := Done.s "timeout" }
        let _fileInner := update_database_entry file entry.url dir (Done.s "timeout")
        let mem := donePart ++ entry' :: rest
        convGo dir oracle (i + 1) (donePart ++ [entry']) rest mem (trace ++ [mem])
      | .success =>
        let entry' := { entry with done := Done.b true, download_path := dir }
        let _fileInner := update_database_entry file entry.url dir (Done.b true)
        let mem := donePart ++ entry' :: rest
        convGo dir oracle (i + 1) (donePart ++ [entry']) rest mem (trace ++ [mem])
      | .exn =>
        let entry' := { entry with done := Done.s "timeout" }
        -- `continue` in the except block: no save this iteration
        convGo dir oracle (i + 1) (donePart ++ [entry']) rest file (trace ++ [file])

/-- The selection made at the top of `process_file`:
`[item for item in data if item.get("done", False) is not True]`. -/
def entries_to_process (store : List Entry) : List Entry :=
  store.filter (fun item => item.done ≠ Done.b true)

/-- The function `process_file` from `conversion.py`, over the store content loaded at
the start of the run.  When every entry is already done the function
returns before the loop and nothing is written. -/
def process_file (dir : String) (oracle : Nat → Outcome) (store : List Entry) :
    ConvResult :=
  if (entries_to_process store).isEmpty then { file := store, trace := [] }
  else convGo dir oracle 0 [] store store []

/-- The net effect of one conversion run on the record at position `i`,
read off the branches of `convGo`. -/
def recordResult (dir : String) (oracle : Nat → Outcome) (i : Nat) (entry : Entry) :
    Entry :=
  if entry.done = Done.b true then entry
  else
    match oracle i with
    | .noInput | .noConvert => entry
    | .timeout | .exn => { entry with done := Done.s "timeout" }
    | .success => { entry with done := Done.b true, download_path := dir }

/-- Position-indexed map starting at index `i`. -/
def mapFrom (f : Nat → Entry → Entry) : Nat → List Entry → List Entry
  | _, [] => []
  | i, entry :: rest => f i entry :: mapFrom f (i + 1) rest

/-! Section: Persisted file model

Both modules define the same `load_database`/`save_database` pair over a
single JSON file.  The file system is modelled by its three observable
states: the file is missing, the file exists but `json.load` raises, or
the file holds a JSON value.  JSON values are modelled structurally;
`json.dump`/`json.load` are value-faithful (text rendering modulo key
order is outside the model, as the specification itself allows). -/

/-- Structural model of a JSON value. -/
inductive Json where
  | null
  | bool (b : Bool)
  | str (s : String)
  | num (n : Int)
  | arr (elems : List Json)
  | obj (fields : List (String × Json))

/-- Observable state of the database file. -/
inductive FileState where
  | missing
  | corrupt
  | content (j : Json)

/-- Behavior of `load_database`: missing file → `[]`; `json.load` raising → `[]`
(the bare `except`); otherwise the parsed value. -/
def load_database : FileState → Json
  | .missing => .arr []
  | .corrupt => .arr []
  | .content j => j

/-- The JSON object the source writes for one record (the
shape of `result_obj` and of every mutation the pipelines perform). -/
def encodeEntry (entry : Entry) : Json :=
  .obj [("title", .str entry.title),
        ("url", .str entry.url),
        ("done", match entry.done with | .b b => .bool b | .s s => .str s),
        ("download_path", .str entry.download_path),
        ("project", .str entry.project)]

/-- JSON value of a whole store. -/
def encodeDb (db : List Entry) : Json :=
  .arr (db.map encodeEntry)

/-- Model of `save_database(data)`: whole-file overwrite with the JSON dump of the
record list. -/
def save_database (db : List Entry) : FileState :=
  .content (encodeDb db)

/-- Read a JSON string, as the field accesses `entry['title']`,
`entry['url']`, … expect. -/
def asStr : Json → Option String
  | .str s => some s
  | _ => none

/-- Read a `done` field: a boolean or a string such as `"timeout"`. -/
def asDone : Json → Option Done
  | .bool b => some (Done.b b)
  | .str s => some (Done.s s)
  | _ => none

/-- The typed view of one stored object: the five fields the source
reads on every record. -/
def decodeEntry : Json → Option Entry
  | .obj fields => do
    let t ← (fields.lookup "title").bind asStr
    let u ← (fields.lookup "url").bind asStr
    let d ← (fields.lookup "done").bind asDone
    let dp ← (fields.lookup "download_path").bind asStr
    let pr ← (fields.lookup "project").bind asStr
    pure { title := t, url := u, done := d, download_path := dp, project := pr }
  | _ => none

/-- Typed view of a list of stored objects, in order. -/
def decodeEntries : List Json → Option (List Entry)
  | [] => some []
  | j :: js => do
    let entry ← decodeEntry j
    let rest ← decodeEntries js
    pure (entry :: rest)

/-- Typed view of a whole store value. -/
def decodeDb : Json → Option (List Entry)
  | .arr elems => decodeEntries elems
  | _ => none

/-! Section: Derived characterizations and formalized claim statements -/

/-- The record (if any) that a discovery run appends for one query,
given the database loaded at the start of the run: nothing when the
search yielded no URL or when the dedup check found a match, otherwise a
fresh pending record. -/
def newEntryFor (db : List Entry) (p : String × Option String) : Option Entry :=
  match p.2 with
  | none => none
  | some url =>
    match check_duplicate url db with
    | some _ => none
    | none => some { title := p.1, url := url, done := Done.b false,
                     download_path := "", project := "" }

/-- The duplicate (if any) that a discovery run reports for one query. -/
def dupFor (db : List Entry) (p : String × Option String) : Option (String × Entry) :=
  match p.2 with
  | none => none
  | some url => (check_duplicate url db).map (fun entry => (p.1, entry))

/-- The store writes performed by a discovery run: `main` only calls
`save_database` when `new_entries` is non-empty
(`if new_entries: database.extend(new_entries); save_database(database)`). -/
def discoverySaves (db : List Entry) (results : List (String × Option String)) :
    List (List Entry) :=
  let (news, _) := discoveryLoop db results [] []
  if news.isEmpty then [] else [db ++ news]

/-- Claim C7 as stated: after a discovery run the persisted store is the
old records followed by the new pending records in query order, and the
store is persisted (exactly) once after all queries. -/
def claimC7 : Prop :=
  ∀ (db : List Entry) (results : List (String × Option String)),
    (discoveryRun db results).1 = db ++ results.filterMap (newEntryFor db) ∧
    discoverySaves db results = [(discoveryRun db results).1]

/-- Spec-worded `upsertStatus` (the refinement
counterpart of `update_database_entry`): find the matching record by
recomputed identifier equality, mutate it in place, write back. -/
def upsertStatus_spec (database : List Entry) (url download_path : String)
    (done_status : Done) : List Entry :=
  match database with
  | [] => []
  | entry :: rest =>
    if extract_video_id entry.url = extract_video_id url then
      updateEntryFields entry download_path done_status :: rest
    else entry :: upsertStatus_spec rest url download_path done_status

/-- Claim C6 as stated: the store upsert matches records by recomputed
identifier equality (and by no other criterion). -/
def claimC6 : Prop :=
  ∀ (database : List Entry) (url download_path : String) (done_status : Done),
    update_database_entry database url download_path done_status
      = upsertStatus_spec database url download_path done_status

/-- A `v` query parameter is literally present in the URL's query string:
some `&`-separated item has the raw name `v`. -/
def vParamLiterallyPresent (url : String) : Prop :=
  ∃ item ∈ splitAll '&' (urlparse url).query.toList,
    item.takeWhile (fun c => c ≠ '=') = ['v']

/-- Claim C5 as stated: a non-empty identifier is returned if and only if
the hostname is youtube.com/www.youtube.com, the path is `/watch`, and a
`v` query parameter is present. -/
def claimC5 : Prop :=
  ∀ url : String,
    (∃ id, extract_video_id url = some id ∧ id ≠ "") ↔
      (((urlparse url).hostname = "www.youtube.com" ∨
        (urlparse url).hostname = "youtube.com") ∧
       (urlparse url).path = "/watch" ∧ vParamLiterallyPresent url)

/-- Claim C4 as stated: when an unexpected exception hits a selected
record, its status is set to `timeout` and the store is persisted
immediately, before the next record begins — i.e. the persisted content
at the end of that loop iteration already shows the `timeout`. -/
def claimC4 : Prop :=
  ∀ (dir : String) (oracle : Nat → Outcome) (store : List Entry) (i : Nat)
    (entry : Entry),
    store[i]? = some entry → entry.done ≠ Done.b true → oracle i = Outcome.exn →
    ∀ file : List Entry, (process_file dir oracle store).trace[i]? = some file →
      ∃ entry', file[i]? = some entry' ∧ entry'.done = Done.s "timeout"

/-- A pending record used in concrete witnesses. -/
def samplePending : Entry :=
  { title := "t1", url := "https://www.youtube.com/watch?v=id1",
    done := Done.b false, download_path := "", project := "" }

/-- A second pending record used in concrete witnesses. -/
def samplePending2 : Entry :=
  { title := "t2", url := "https://www.youtube.com/watch?v=id2",
    done := Done.b false, download_path := "", project := "" }

/-- A record already done, used in concrete witnesses. -/
def sampleDone : Entry :=
  { title := "t3", url := "https://www.youtube.com/watch?v=id3",
    done := Done.b true, download_path := "old", project := "p" }

/-- A record whose URL carries the id `abc123` without the `www` host,
used to separate identifier equality from URL string equality. -/
def dupEntry : Entry :=
  { title := "t4", url := "https://youtube.com/watch?v=abc123",
    done := Done.b false, download_path := "", project := "" }

/-! Section: Master lemmas about the conversion run -/

/-- The persisted store after `convGo` is the mutated memory: the prefix
already visited followed by each remaining entry transformed by
`recordResult` at its position. -/
theorem convGo_file (dir : String) (oracle : Nat → Outcome) (rest : List Entry) :
    ∀ (i : Nat) (donePart file : List Entry) (trace : List (List Entry)),
      (convGo dir oracle i donePart rest file trace).file
        = donePart ++ mapFrom (recordResult dir oracle) i rest := by
  induction rest with
  | nil => intro i donePart file trace; simp [convGo, mapFrom]
  | cons entry rest ih =>
    intro i donePart file trace
    by_cases h : entry.done = Done.b true
    · simp [convGo, mapFrom, recordResult, h, ih, List.append_assoc]
    · cases ho : oracle i <;>
        simp [convGo, mapFrom, recordResult, h, ho, ih, List.append_assoc]

/-- If every entry is already done, the positional transform is the
identity. -/
theorem mapFrom_recordResult_all_done (dir : String) (oracle : Nat → Outcome)
    (store : List Entry) (h : ∀ entry ∈ store, entry.done = Done.b true) :
    ∀ i, mapFrom (recordResult dir oracle) i store = store := by
  induction store with
  | nil => intro i; simp [mapFrom]
  | cons entry rest ih =>
    intro i
    have he : entry.done = Done.b true := h entry (List.mem_cons_self ..)
    have ih' := ih (fun e hmem => h e (List.mem_cons_of_mem _ hmem))
    simp [mapFrom, recordResult, he, ih']

/-- Final persisted store of a whole conversion run: every record is
transformed independently according to its own pre-state and outcome. -/
theorem process_file_file (dir : String) (oracle : Nat → Outcome) (store : List Entry) :
    (process_file dir oracle store).file = mapFrom (recordResult dir oracle) 0 store := by
  unfold process_file
  by_cases h : (entries_to_process store).isEmpty
  · have h' : ∀ entry ∈ store, entry.done = Done.b true := by
      intro entry hmem
      by_contra hne
      have : entry ∈ entries_to_process store := by
        simp [entries_to_process, List.mem_filter, hmem, hne]
      rw [List.isEmpty_iff] at h
      simp [h] at this
    simp [h, mapFrom_recordResult_all_done dir oracle store h']
  · simp [h, convGo_file]

/-- The final store keeps the length of the loaded store. -/
theorem mapFrom_length (f : Nat → Entry → Entry) :
    ∀ (i : Nat) (l : List Entry), (mapFrom f i l).length = l.length := by
  intro i l
  induction l generalizing i with
  | nil => simp [mapFrom]
  | cons entry rest ih => simp [mapFrom, ih]

/-- Pointwise description of the final store. -/
theorem mapFrom_getElem (f : Nat → Entry → Entry) :
    ∀ (l : List Entry) (i k : Nat), (mapFrom f i l)[k]? = (l[k]?).map (f (i + k)) := by
  intro l
  induction l with
  | nil => intro i k; simp [mapFrom]
  | cons entry rest ih =>
    intro i k
    cases k with
    | zero => simp [mapFrom]
    | succ k =>
      simp [mapFrom, ih (i + 1) k, Nat.add_comm, Nat.add_assoc, Nat.add_left_comm]

/-! Section: Helper lemmas: store upsert, discovery loop, identifier shape -/

/-- When no record's `url` field equals the given URL, the scan writes
back the loaded store unchanged. -/
theorem ude_of_no_match (url download_path : String) (st : Done) :
    ∀ database : List Entry, (∀ entry ∈ database, entry.url ≠ url) →
      update_database_entry database url download_path st = database := by
  intro database h
  induction database with
  | nil => rfl
  | cons entry rest ih =>
    have h1 : entry.url ≠ url := h entry (List.mem_cons_self ..)
    have ih' := ih (fun e he => h e (List.mem_cons_of_mem _ he))
    simp [update_database_entry, h1, ih']

/-- The scan mutates exactly the first `url`-matching record. -/
theorem ude_split (url download_path : String) (st : Done) (entry : Entry)
    (he : entry.url = url) :
    ∀ pre : List Entry, (∀ e ∈ pre, e.url ≠ url) → ∀ post : List Entry,
      update_database_entry (pre ++ entry :: post) url download_path st
        = pre ++ updateEntryFields entry download_path st :: post := by
  intro pre
  induction pre with
  | nil => intro _ post; simp [update_database_entry, he]
  | cons x xs ih =>
    intro h post
    have hx : x.url ≠ url := h x (List.mem_cons_self ..)
    have ih' := ih (fun e hm => h e (List.mem_cons_of_mem _ hm)) post
    simp [update_database_entry, hx, ih']

/-- The scan never changes the store's length. -/
theorem ude_length (url download_path : String) (st : Done) :
    ∀ database : List Entry,
      (update_database_entry database url download_path st).length = database.length := by
  intro database
  induction database with
  | nil => rfl
  | cons entry rest ih =>
    by_cases h : entry.url = url <;> simp [update_database_entry, h, ih]

/-- Pointwise frame of the scan: with the first match at position `k`,
position `k` gets the field update and every other position is
untouched. -/
theorem ude_first_match (url download_path : String) (st : Done) :
    ∀ (database : List Entry) (k : Nat) (entry : Entry),
      database[k]? = some entry → entry.url = url →
      (∀ j, j < k → ∀ e, database[j]? = some e → e.url ≠ url) →
      (update_database_entry database url download_path st)[k]?
          = some (updateEntryFields entry download_path st) ∧
        ∀ j, j ≠ k →
          (update_database_entry database url download_path st)[j]? = database[j]? := by
  intro database
  induction database with
  | nil => intro k entry hk; simp at hk
  | cons x xs ih =>
    intro k entry hk hmatch hfirst
    cases k with
    | zero =>
      rw [List.getElem?_cons_zero] at hk
      obtain rfl : x = entry := by injection hk
      constructor
      · simp [update_database_entry, hmatch]
      · intro j hj
        cases j with
        | zero => exact absurd rfl hj
        | succ j' => simp [update_database_entry, hmatch]
    | succ k' =>
      rw [List.getElem?_cons_succ] at hk
      have hx : x.url ≠ url := hfirst 0 (Nat.succ_pos k') x List.getElem?_cons_zero
      have hfirst' : ∀ j, j < k' → ∀ e, xs[j]? = some e → e.url ≠ url := by
        intro j hj e hje
        exact hfirst (j + 1) (Nat.succ_lt_succ hj) e
          (by rw [List.getElem?_cons_succ]; exact hje)
      obtain ⟨hk1, hk2⟩ := ih k' entry hk hmatch hfirst'
      constructor
      · simp [update_database_entry, hx, hk1]
      · intro j hj
        cases j with
        | zero => simp [update_database_entry, hx]
        | succ j' =>
          have hj' : j' ≠ k' := fun hc => hj (by rw [hc])
          simp [update_database_entry, hx, hk2 j' hj']

/-- Closed form of the discovery loop: appended records and reported
duplicates are each a `filterMap` over the per-query results, checked
against the store loaded at the start of the run. -/
theorem discoveryLoop_eq (db : List Entry) :
    ∀ (results : List (String × Option String)) (news : List Entry)
      (dups : List (String × Entry)),
      discoveryLoop db results news dups
        = (news ++ results.filterMap (newEntryFor db),
           dups ++ results.filterMap (dupFor db)) := by
  intro results
  induction results with
  | nil => intro news dups; simp [discoveryLoop]
  | cons p rest ih =>
    intro news dups
    obtain ⟨q, r⟩ := p
    cases r with
    | none => simp [discoveryLoop, newEntryFor, dupFor, ih]
    | some url =>
      cases hc : check_duplicate url db with
      | some entry => simp [discoveryLoop, newEntryFor, dupFor, hc, ih]
      | none => simp [discoveryLoop, newEntryFor, dupFor, hc, ih, mkNewEntry]

/-- Percent-decoding never turns a non-empty string into an empty one. -/
theorem percentDecode_ne_nil (cs : List Char) (h : cs ≠ []) :
    percentDecode cs ≠ [] := by
  rw [percentDecode.eq_def]
  split
  · exact h
  · split <;> simp
  · simp

/-- Decoding via `unquote_plus` never turns a non-empty string into an empty one. -/
theorem unquotePlus_ne_empty (cs : List Char) (h : cs ≠ []) :
    unquotePlus (String.mk cs) ≠ "" := by
  unfold unquotePlus
  intro hcontra
  have hnil : percentDecode (cs.map fun c => if c = '+' then ' ' else c) = [] := by
    simpa using congrArg String.toList hcontra
  exact percentDecode_ne_nil _ (by simpa using h) hnil

/-- Every value kept by the query-string parser is non-empty  —
`keep_blank_values=False` drops blank values. -/
theorem qsPairs_snd_ne_empty (query : String) (p : String × String)
    (hp : p ∈ qsPairs query) : p.2 ≠ "" := by
  unfold qsPairs at hp
  obtain ⟨item, _, hf⟩ := List.mem_filterMap.mp hp
  by_cases h0 : item = []
  · simp [h0] at hf
  · rw [if_neg h0] at hf
    cases hs : splitAtFirst '=' item with
    | none => rw [hs] at hf; simp at hf
    | some pr =>
      obtain ⟨nm, vl⟩ := pr
      rw [hs] at hf
      have hf' : (if vl = [] then none
          else some (unquotePlus (String.mk nm), unquotePlus (String.mk vl)))
            = some p := hf
      by_cases hv : vl = []
      · simp [hv] at hf'
      · rw [if_neg hv] at hf'
        have hp2 : p.2 = unquotePlus (String.mk vl) := by
          injection hf' with h'
          rw [← h']
        rw [hp2]
        exact unquotePlus_ne_empty vl hv

/-- The first `v` value of a query string is non-empty. -/
theorem getParamV_ne_empty (query v : String) (h : getParamV query = some v) :
    v ≠ "" := by
  unfold getParamV at h
  obtain ⟨p, hfind, hv⟩ := Option.map_eq_some'.mp h
  have hmem := List.mem_of_find?_eq_some hfind
  rw [← hv]
  exact qsPairs_snd_ne_empty query p hmem

/-- The function `extract_video_id` never returns an empty identifier: the falsy-id
guard in `check_duplicate` only ever fires on a missing id. -/
theorem extract_video_id_ne_empty (url v : String)
    (h : extract_video_id url = some v) : v ≠ "" := by
  simp only [extract_video_id] at h
  split at h
  · split at h
    · exact getParamV_ne_empty _ _ h
    · simp at h
  · simp at h

/-- Scanning entries with no extracted-id match finds nothing. -/
theorem find?_entry_none (v : String) (db : List Entry)
    (hdb : ∀ entry ∈ db, extract_video_id entry.url ≠ some v) :
    db.find? (fun entry => extract_video_id entry.url == some v) = none :=
  List.find?_eq_none.mpr (fun e he => by simpa using hdb e he)

/-- The dedup check misses when no existing record re-derives to the
candidate's id. -/
theorem check_duplicate_none (url : String) (db : List Entry) (v : String)
    (hu : extract_video_id url = some v)
    (hdb : ∀ entry ∈ db, extract_video_id entry.url ≠ some v) :
    check_duplicate url db = none := by
  have hv := extract_video_id_ne_empty url v hu
  simp only [check_duplicate, hu]
  rw [if_neg hv, find?_entry_none v db hdb]

/-! Section: Claim theorems -/

/-- Claim C1: dedup idempotence of the discovery pipeline.  If two URLs
extract the same canonical video id and no record of the store matches
that id yet, then after a run inserts a record for the first URL, a
later run attempting the second URL leaves the store unchanged and
reports a duplicate referencing the record inserted for the first
URL. -/
theorem C1_dedup_idempotence (db : List Entry) (q1 q2 u1 u2 v : String)
    (h1 : extract_video_id u1 = some v) (h2 : extract_video_id u2 = some v)
    (hdb : ∀ entry ∈ db, extract_video_id entry.url ≠ some v) :
    (discoveryRun db [(q1, some u1)]).1 = db ++ [mkNewEntry q1 u1] ∧
    (discoveryRun (db ++ [mkNewEntry q1 u1]) [(q2, some u2)]).1
      = db ++ [mkNewEntry q1 u1] ∧
    (discoveryRun (db ++ [mkNewEntry q1 u1]) [(q2, some u2)]).2
      = [(q2, mkNewEntry q1 u1)] := by
  have hv : v ≠ "" := extract_video_id_ne_empty u1 v h1
  have hc1 : check_duplicate u1 db = none := check_duplicate_none u1 db v h1 hdb
  have hc2 : check_duplicate u2 (db ++ [mkNewEntry q1 u1]) = some (mkNewEntry q1 u1) := by
    simp only [check_duplicate, h2]
    rw [if_neg hv, List.find?_append, find?_entry_none v db hdb]
    simp [List.find?, mkNewEntry, h1]
  refine ⟨?_, ?_, ?_⟩
  · simp [discoveryRun, discoveryLoop, hc1]
  · simp [discoveryRun, discoveryLoop, hc2]
  · simp [discoveryRun, discoveryLoop, hc2]

/-- Witness for C1 at concrete inputs: two URL spellings of the video id
`abc123` against an empty store. -/
theorem C1_witness :
    extract_video_id "https://www.youtube.com/watch?v=abc123" = some "abc123" ∧
    (discoveryRun [] [("q1", some "https://www.youtube.com/watch?v=abc123")]).1
      = [mkNewEntry "q1" "https://www.youtube.com/watch?v=abc123"] ∧
    (discoveryRun [mkNewEntry "q1" "https://www.youtube.com/watch?v=abc123"]
        [("q2", some "https://youtube.com/watch?v=abc123")]).1
      = [mkNewEntry "q1" "https://www.youtube.com/watch?v=abc123"] ∧
    (discoveryRun [mkNewEntry "q1" "https://www.youtube.com/watch?v=abc123"]
        [("q2", some "https://youtube.com/watch?v=abc123")]).2
      = [("q2", mkNewEntry "q1" "https://www.youtube.com/watch?v=abc123")] := by
  have h := C1_dedup_idempotence [] "q1" "q2"
    "https://www.youtube.com/watch?v=abc123" "https://youtube.com/watch?v=abc123"
    "abc123" (by decide) (by decide) (by simp)
  exact ⟨by decide, by simpa using h.1, by simpa using h.2.1, by simpa using h.2.2⟩

/-- Claim C2: status monotonicity of the conversion pipeline.  A record
whose `done` field is `True` when the run starts is not in the selected
subset and is unchanged in the persisted store after the run. -/
theorem C2_status_monotonicity (dir : String) (oracle : Nat → Outcome)
    (store : List Entry) (i : Nat) (entry : Entry)
    (hget : store[i]? = some entry) (hdone : entry.done = Done.b true) :
    (process_file dir oracle store).file[i]? = some entry ∧
    entry ∉ entries_to_process store := by
  constructor
  · rw [process_file_file, mapFrom_getElem, hget]
    simp [recordResult, hdone]
  · intro hmem
    rw [entries_to_process, List.mem_filter] at hmem
    exact absurd hdone (by simpa using hmem.2)

/-- Witness for C2: a store with one done and one pending record; the
done record survives a run untouched. -/
theorem C2_witness :
    ([sampleDone, samplePending] : List Entry)[0]? = some sampleDone ∧
    sampleDone.done = Done.b true ∧
    (process_file "dl" (fun _ => Outcome.success) [sampleDone, samplePending]).file[0]?
      = some sampleDone := by
  refine ⟨rfl, rfl, ?_⟩
  exact (C2_status_monotonicity "dl" (fun _ => Outcome.success)
    [sampleDone, samplePending] 0 sampleDone rfl rfl).1

/-- Claim C3: timeout fallback.  A selected record whose download action
never appears within the budget ends the run with status exactly
`"timeout"` (never `True`), and its `download_path` is not touched by
the final store write. -/
theorem C3_timeout_fallback (dir : String) (oracle : Nat → Outcome)
    (store : List Entry) (i : Nat) (entry : Entry)
    (hget : store[i]? = some entry) (hsel : entry.done ≠ Done.b true)
    (hto : oracle i = Outcome.timeout) :
    ∃ entry', (process_file dir oracle store).file[i]? = some entry' ∧
      entry'.done = Done.s "timeout" ∧ entry'.done ≠ Done.b true ∧
      entry'.download_path = entry.download_path := by
  refine ⟨{ entry with done := Done.s "timeout" }, ?_, rfl, by simp, rfl⟩
  rw [process_file_file, mapFrom_getElem, hget]
  simp [recordResult, hsel, hto]

/-- Witness for C3: a single pending record whose download button never
appears. -/
theorem C3_witness :
    samplePending.done ≠ Done.b true ∧
    ∃ entry', (process_file "dl" (fun _ => Outcome.timeout) [samplePending]).file[0]?
        = some entry' ∧
      entry'.done = Done.s "timeout" ∧ entry'.done ≠ Done.b true ∧
      entry'.download_path = samplePending.download_path := by
  refine ⟨by decide, ?_⟩
  exact C3_timeout_fallback "dl" (fun _ => Outcome.timeout) [samplePending] 0
    samplePending rfl (by decide) rfl

/-- Claim C4 fails on the code: with two pending records and an
unexpected exception on the first, the persisted store at the end of the
first loop iteration (i.e. when the second record begins) is still the
original store — the `continue` in the `except` block skips the
per-entry `save_database(data)`, so the `timeout` mark is not persisted
before the next record begins. -/
theorem C4_counterexample :
    (process_file "dl" (fun _ => Outcome.exn) [samplePending, samplePending2]).trace[0]?
        = some [samplePending, samplePending2] ∧
    samplePending.done = Done.b false ∧
    ¬ claimC4 := by
  refine ⟨by decide, rfl, ?_⟩
  intro h
  have h2 := h "dl" (fun _ => Outcome.exn) [samplePending, samplePending2] 0
    samplePending rfl (by decide) rfl [samplePending, samplePending2] (by decide)
  obtain ⟨entry', he, hd⟩ := h2
  rw [List.getElem?_cons_zero] at he
  injection he with he'
  rw [← he'] at hd
  exact absurd hd (by decide)

/-- Claim C4 as amended: on an unexpected exception the record's status
is set to `timeout` in memory and the loop continues — every other
record still receives its normal treatment — and the `timeout` reaches
the persisted store by the end of the run (through a later record's save
or the final save), though not necessarily before the next record
begins. -/
theorem C4_exception_handling (dir : String) (oracle : Nat → Outcome)
    (store : List Entry) (i : Nat) (entry : Entry)
    (hget : store[i]? = some entry) (hsel : entry.done ≠ Done.b true)
    (hexn : oracle i = Outcome.exn) :
    (process_file dir oracle store).file[i]? = some { entry with done := Done.s "timeout" } ∧
    ∀ j, (process_file dir oracle store).file[j]?
        = (store[j]?).map (recordResult dir oracle j) := by
  constructor
  · rw [process_file_file, mapFrom_getElem, hget]
    simp [recordResult, hsel, hexn]
  · intro j
    rw [process_file_file, mapFrom_getElem]
    simp

/-- Witness for the amended C4: exception on the first record, success on
the second; the final store shows `timeout` for the first record and
`done` for the second. -/
theorem C4_witness :
    samplePending.done ≠ Done.b true ∧
    (process_file "dl" (fun i => if i = 0 then Outcome.exn else Outcome.success)
        [samplePending, samplePending2]).file[0]?
      = some { samplePending with done := Done.s "timeout" } ∧
    (process_file "dl" (fun i => if i = 0 then Outcome.exn else Outcome.success)
        [samplePending, samplePending2]).file[1]?
      = some { samplePending2 with done := Done.b true, download_path := "dl" } := by
  have h := C4_exception_handling "dl"
    (fun i => if i = 0 then Outcome.exn else Outcome.success)
    [samplePending, samplePending2] 0 samplePending rfl (by decide) rfl
  refine ⟨by decide, h.1, ?_⟩
  rw [h.2 1]
  simp [recordResult, samplePending2]

/-- Claim C5 fails on the code: in `https://www.youtube.com/watch?v=`
the `v` query parameter is present, the hostname and path conditions
hold, yet `extract_video_id` returns `None`, because `parse_qs` drops
parameters with a blank value. -/
theorem C5_counterexample :
    ((urlparse "https://www.youtube.com/watch?v=").hostname = "www.youtube.com" ∧
     (urlparse "https://www.youtube.com/watch?v=").path = "/watch" ∧
     vParamLiterallyPresent "https://www.youtube.com/watch?v=") ∧
    extract_video_id "https://www.youtube.com/watch?v=" = none ∧
    ¬ claimC5 := by
  refine ⟨⟨by decide, by decide, ⟨['v', '='], by decide, by decide⟩⟩, by decide, ?_⟩
  intro h
  obtain ⟨id, hid, -⟩ := (h "https://www.youtube.com/watch?v=").mpr
    ⟨Or.inl (by decide), by decide, ⟨['v', '='], by decide, by decide⟩⟩
  rw [show extract_video_id "https://www.youtube.com/watch?v=" = none from by decide] at hid
  exact Option.noConfusion hid

/-- Claim C5 as amended: `extract_video_id` returns a (necessarily
non-empty) identifier exactly when the hostname is
`www.youtube.com`/`youtube.com`, the path is exactly `/watch`, and the
query carries a `v` parameter with a non-blank value; and a URL with no
extractable identifier is never reported as a duplicate — the dedup
check is skipped and the item is inserted as new. -/
theorem C5_extraction_rule :
    (∀ url : String,
        (∃ id, extract_video_id url = some id ∧ id ≠ "") ↔
          (((urlparse url).hostname = "www.youtube.com" ∨
            (urlparse url).hostname = "youtube.com") ∧
           (urlparse url).path = "/watch" ∧
           (getParamV (urlparse url).query).isSome = true)) ∧
    (∀ (url : String) (db : List Entry) (q : String),
        extract_video_id url = none →
        check_duplicate url db = none ∧
        (discoveryRun db [(q, some url)]).1 = db ++ [mkNewEntry q url] ∧
        (discoveryRun db [(q, some url)]).2 = []) := by
  constructor
  · intro url
    constructor
    · rintro ⟨id, hid, -⟩
      by_cases h1 : (urlparse url).hostname = "www.youtube.com" ∨
          (urlparse url).hostname = "youtube.com"
      · by_cases h2 : (urlparse url).path = "/watch"
        · refine ⟨h1, h2, ?_⟩
          simp only [extract_video_id, if_pos h1, if_pos h2] at hid
          simp [hid]
        · simp only [extract_video_id, if_pos h1, if_neg h2] at hid
          exact Option.noConfusion hid
      · simp only [extract_video_id, if_neg h1] at hid
        exact Option.noConfusion hid
    · rintro ⟨h1, h2, h3⟩
      obtain ⟨id, hid⟩ := Option.isSome_iff_exists.mp h3
      refine ⟨id, ?_, getParamV_ne_empty _ _ hid⟩
      simp only [extract_video_id, if_pos h1, if_pos h2]
      exact hid
  · intro url db q h
    have hc : check_duplicate url db = none := by simp [check_duplicate, h]
    exact ⟨hc, by simp [discoveryRun, discoveryLoop, hc], by
      simp [discoveryRun, discoveryLoop, hc]⟩

/-- Witness for the amended C5: a non-watch URL yields no identifier, is
not reported as a duplicate, and is inserted as new. -/
theorem C5_witness :
    extract_video_id "https://example.com/page" = none ∧
    check_duplicate "https://example.com/page" [dupEntry] = none ∧
    (discoveryRun [dupEntry] [("q", some "https://example.com/page")]).1
      = [dupEntry, mkNewEntry "q" "https://example.com/page"] := by
  have h := C5_extraction_rule.2 "https://example.com/page" [dupEntry] "q" (by decide)
  exact ⟨by decide, h.1, by simpa using h.2.1⟩

/-- Claim C6 fails on the code: `update_database_entry` compares the
stored `url` strings for exact equality, not recomputed identifiers.
Two spellings of the same video id (`abc123`) do not match: the code
leaves the record untouched where identifier-equality matching would
mutate it. -/
theorem C6_counterexample :
    extract_video_id dupEntry.url = some "abc123" ∧
    extract_video_id "https://www.youtube.com/watch?v=abc123" = some "abc123" ∧
    update_database_entry [dupEntry] "https://www.youtube.com/watch?v=abc123" "dl"
        (Done.b true) = [dupEntry] ∧
    upsertStatus_spec [dupEntry] "https://www.youtube.com/watch?v=abc123" "dl"
        (Done.b true) = [updateEntryFields dupEntry "dl" (Done.b true)] ∧
    ¬ claimC6 := by
  refine ⟨by decide, by decide, by decide, by decide, ?_⟩
  intro h
  have h2 := h [dupEntry] "https://www.youtube.com/watch?v=abc123" "dl" (Done.b true)
  exact absurd h2 (by decide)

/-- Claim C6 as amended: the upsert takes the loaded store, finds the
matching record by exact `url` string equality (the first match),
mutates in place its `done` field and — when the path is non-empty —
its `download_path` field, and returns the whole store for the
write-back; with no string match the store is written back unchanged. -/
theorem C6_upsert_matching (url download_path : String) (st : Done) :
    (∀ (pre : List Entry) (entry : Entry) (post : List Entry),
        (∀ e ∈ pre, e.url ≠ url) → entry.url = url →
        update_database_entry (pre ++ entry :: post) url download_path st
          = pre ++ updateEntryFields entry download_path st :: post) ∧
    (∀ database : List Entry, (∀ e ∈ database, e.url ≠ url) →
        update_database_entry database url download_path st = database) :=
  ⟨fun pre entry post h he => ude_split url download_path st entry he pre h post,
   fun database h => ude_of_no_match url download_path st database h⟩

/-- Witness for the amended C6 at a concrete store. -/
theorem C6_witness :
    update_database_entry [samplePending] samplePending.url "dl" (Done.b true)
      = [updateEntryFields samplePending "dl" (Done.b true)] := by
  have h := (C6_upsert_matching samplePending.url "dl" (Done.b true)).1
    [] samplePending [] (by simp) rfl
  simpa using h

/-- Claim C7 fails on the code in one clause: when a run adds no new
entry (here: the only query yields no result URL), `main` skips the
`save_database` call entirely, so the store is persisted zero times, not
once. -/
theorem C7_counterexample :
    discoverySaves [] [("q", none)] = [] ∧
    (discoveryRun [] [("q", none)]).1 = [] ∧
    ¬ claimC7 := by
  refine ⟨rfl, rfl, ?_⟩
  intro h
  have h2 := (h [] [("q", none)]).2
  exact absurd h2 (by decide)

/-- Claim C7 as amended: after a discovery run the persisted store
content is exactly the pre-existing records in their original order
followed by one fresh pending record (`done = False`,
`download_path = ""`, `project = ""`, `title` = query, `url` = result)
per non-duplicate query that yielded a URL, in query order; the reported
duplicates are the per-query dedup hits; and the store is written at
most once, after all queries — the write is skipped when there is
nothing new (content unchanged either way). -/
theorem C7_discovery_batch_append (db : List Entry)
    (results : List (String × Option String)) :
    (discoveryRun db results).1 = db ++ results.filterMap (newEntryFor db) ∧
    (discoveryRun db results).2 = results.filterMap (dupFor db) ∧
    discoverySaves db results
      = (if (results.filterMap (newEntryFor db)).isEmpty then []
         else [db ++ results.filterMap (newEntryFor db)]) := by
  have h := discoveryLoop_eq db results [] []
  have h1 : (discoveryLoop db results [] []).1
      = List.filterMap (newEntryFor db) results := by rw [h]; simp
  refine ⟨?_, ?_, ?_⟩
  · simp [discoveryRun, h]
  · simp [discoveryRun, h]
  · simp only [discoverySaves]
    rw [h1]

/-- Claim C8: store load failure mode.  A missing file and an unparsable
file both load as the empty collection (no exception is raised —
`load_database` is total); a parsable file loads as its parsed value. -/
theorem C8_load_failure :
    load_database FileState.missing = Json.arr [] ∧
    load_database FileState.corrupt = Json.arr [] ∧
    ∀ j : Json, load_database (FileState.content j) = j :=
  ⟨rfl, rfl, fun _ => rfl⟩

/-- Claim C9: store round-trip.  Saving any store and loading it back
reproduces every record, every field and the order exactly. -/
theorem C9_round_trip :
    ∀ db : List Entry, decodeDb (load_database (save_database db)) = some db := by
  intro db
  show decodeEntries (db.map encodeEntry) = some db
  induction db with
  | nil => rfl
  | cons entry rest ih =>
    have he : decodeEntry (encodeEntry entry) = some entry := by
      cases entry with
      | mk t u d dp pr => cases d <;> rfl
    simp [List.map, decodeEntries, he, ih]

/-- Claim C10 (implicit frame property of the upsert): the store write
keeps the record count; when no record's `url` matches, the write equals
the load; with the first `url` match at position `k`, position `k` gets
`done := st` and — only for a non-empty path — `download_path := path`,
while `title`, `url`, `project` and every other position are unchanged. -/
theorem C10_upsert_frame (database : List Entry) (url download_path : String)
    (st : Done) :
    (update_database_entry database url download_path st).length = database.length ∧
    ((∀ e ∈ database, e.url ≠ url) →
      update_database_entry database url download_path st = database) ∧
    (∀ (k : Nat) (entry : Entry), database[k]? = some entry → entry.url = url →
      (∀ j, j < k → ∀ e, database[j]? = some e → e.url ≠ url) →
      (update_database_entry database url download_path st)[k]?
          = some { entry with
                     done := st
                     download_path := if download_path = ""
                       then entry.download_path else download_path } ∧
        ∀ j, j ≠ k →
          (update_database_entry database url download_path st)[j]? = database[j]?) := by
  refine ⟨ude_length url download_path st database,
          ude_of_no_match url download_path st database, ?_⟩
  intro k entry hk hmatch hfirst
  exact ude_first_match url download_path st database k entry hk hmatch hfirst

/-- Witness for C10: a two-record store whose second record matches. -/
theorem C10_witness :
    (update_database_entry [sampleDone, samplePending] samplePending.url "dl"
        (Done.s "timeout"))[1]?
      = some { samplePending with done := Done.s "timeout", download_path := "dl" } ∧
    (update_database_entry [sampleDone, samplePending] samplePending.url "dl"
        (Done.s "timeout"))[0]?
      = some sampleDone := by
  have h := (C10_upsert_frame [sampleDone, samplePending] samplePending.url "dl"
    (Done.s "timeout")).2.2 1 samplePending rfl rfl
    (by
      intro j hj e hje
      have hj0 : j = 0 := Nat.lt_one_iff.mp hj
      subst hj0
      rw [List.getElem?_cons_zero] at hje
      injection hje with hje'
      rw [← hje']
      decide)
  refine ⟨by simpa using h.1, ?_⟩
  rw [h.2 0 (by decide)]
  rfl

end AutoYt
